import Mathlib

/-!
# Verification of the sentinews-api pipeline orchestration subsystem

Shallow embedding of the repository's pipeline orchestration code:

* `scrapers/scraper_manager.py` — adapter discovery, memoization cache and
  name-based resolution (`discover_scrapers`, `get_scraper_modules`);
* `database.py` — the SQLite-backed store (`add_link`, `add_article`,
  `add_sentiment`, `add_usage_log`, `add_pipeline_run`,
  `get_unscraped_links`, `get_unanalyzed_articles`,
  `mark_article_as_analyzed`), modelled as pure transformations of a `DB`
  record of table contents;
* `pipeline.py` — the acquisition stage (`run_scraping_pipeline`) and the
  extraction stage (`run_analysis_pipeline`);
* `app.py` — the job controller (`trigger_pipeline` / `pipeline_task`),
  the scheduler entry point (`scheduled_pipeline_run`), the stop endpoint
  and the status snapshot.

Scraper adapters and the sentiment analyzer are external collaborators with
deterministic behaviour, modelled as records of values or functions; a call
that raises a Python exception is modelled as an `Except.error`.  The
cooperative cancellation event (`threading.Event`) is modelled as a monotone
oracle `stop : Nat → Bool` indexed by the number of `is_set()` polls
performed so far, threaded through the loops exactly at the poll sites of
the source.  Writes to the `pipeline_status_tracker` dictionary that are
pure telemetry (phase label, progress counters) are modelled at the
controller level where claims refer to them.
-/

namespace SentiNews


/-! ## External collaborators: adapters and the analyzer -/

/-- The dictionary returned by `scrape_article_content` in the scrapers.
A `None` / falsy return of the Python function is modelled by `Option.none`
at the call site. -/
structure ArticleData where
  url : String
  title : String
  author : String
  publication_date : String
  raw_text : String
  cleaned_text : String
deriving DecidableEq


/-- A scraper module (`scrapers/*_scraper.py`): a `SOURCE_NAME` constant, a
zero-argument `get_article_urls` and a one-argument `scrape_article_content`.
The module's behaviour is deterministic for a fixed process, so the two
capabilities are data: `Except.error` models a raised exception and
`Except.ok none` models a falsy (empty/`None`) content result. -/
structure Scraper where
  SOURCE_NAME : String
  get_article_urls : Except String (List String)
  scrape_article_content : String → Except String (Option ArticleData)


/-! ## Source registry (`scrapers/scraper_manager.py`) -/

/-- One file of the `scrapers` directory as seen by `discover_scrapers`:
does its filename match `*_scraper.py` (and not `__*`), does the import
succeed, and does the module pass the duck-typed attribute validation. -/
structure Candidate where
  filename_ok : Bool
  import_ok : Bool
  attrs_ok : Bool
  module : Scraper


/-- Python `dict` insertion: overwriting an existing key keeps its position,
a new key is appended. -/
def dictInsert (d : List (String × Scraper)) (k : String) (v : Scraper) :
    List (String × Scraper) :=
  if d.any (fun p => p.1 == k) then
    d.map (fun p => if p.1 == k then (k, v) else p)
  else d ++ [(k, v)]


/-- Python `dict.get`. -/
def dictGet (d : List (String × Scraper)) (k : String) : Option Scraper :=
  (d.find? (fun p => p.1 == k)).map (fun p => p.2)


/-- One full directory scan of `discover_scrapers` (the body that runs when
the cache is empty): each valid candidate is inserted under its module's
`SOURCE_NAME`, duplicates resolved last-writer-wins by `dict` update. -/
def discover_once (env : List Candidate) : List (String × Scraper) :=
  env.foldl
    (fun acc c =>
      if c.filename_ok && c.import_ok && c.attrs_ok then
        dictInsert acc c.module.SOURCE_NAME c.module
      else acc)
    []


/-- The process-wide module state of `scraper_manager`: the `_scraper_cache`
dictionary, plus a count of directory scans performed (observability of
re-scanning). -/
structure RegistryState where
  cache : List (String × Scraper)
  scans : Nat


/-- The registry state at process start: `_scraper_cache = {}`. -/
def regInit : RegistryState := ⟨[], 0⟩


/-- `discover_scrapers()`: `if _scraper_cache: return _scraper_cache` —
the cache is consulted by *truthiness*, so only a non-empty dictionary
short-circuits the scan. -/
def discover_scrapers (env : List Candidate) (st : RegistryState) :
    List (String × Scraper) × RegistryState :=
  if st.cache.isEmpty then
    let d := discover_once env
    (d, ⟨d, st.scans + 1⟩)
  else (st.cache, st)


/-- The pure resolution core of `get_scraper_modules`: `None` selects all
values; a list of names is resolved one by one through `dict.get`, unknown
names skipped with a warning. -/
def resolve_scrapers (reg : List (String × Scraper)) :
    Option (List String) → List Scraper
  | none => reg.map (fun p => p.2)
  | some ns => ns.filterMap (fun n => dictGet reg n)


/-- `get_scraper_modules(names)` of `scraper_manager.py`. -/
def get_scraper_modules (env : List Candidate) (st : RegistryState)
    (names : Option (List String)) : List Scraper × RegistryState :=
  let r := discover_scrapers env st
  (resolve_scrapers r.1 names, r.2)


/-- A concrete scraper module used by witnesses. -/
def scraperW : Scraper :=
  ⟨"witness.com", .ok [], fun _ => .ok none⟩


/-- A directory containing one valid scraper candidate. -/
def envW : List Candidate := [⟨true, true, true, scraperW⟩]


/-! ## The store (`database.py`)

The SQLite database is modelled as a record of table contents.  `AUTOINCREMENT`
primary keys are modelled by explicit next-id counters (SQLite row ids start
at 1). -/

/-- A row of the `links` table (`url` is `UNIQUE`). -/
structure LinkRow where
  id : Nat
  url : String
  source_website : String
deriving DecidableEq


/-- A row of the `articles` table (`url` is `UNIQUE`, `is_analyzed` defaults
to 0). -/
structure ArticleRow where
  id : Nat
  link_id : Nat
  url : String
  title : String
  author : String
  publication_date : String
  raw_text : String
  cleaned_text : String
  is_analyzed : Bool
deriving DecidableEq


/-- A row of the `sentiments` table. -/
structure SentimentRow where
  article_id : Nat
  entity_name : String
  entity_type : String
  financial_sentiment : String
  overall_sentiment : String
  reasoning : String
deriving DecidableEq


/-- A row of the `usage_logs` table (token/cost details are irrelevant to
the claims; only the append itself is observable). -/
structure UsageRow where
  article_id : Nat
  provider : String
deriving DecidableEq


/-- A row of the `pipeline_runs` table: the persisted `RunSummary`. -/
structure RunRow where
  new_links_found : Nat
  articles_scraped : Nat
  entities_analyzed : Nat
  status : String
deriving DecidableEq


/-- The database state. -/
structure DB where
  links : List LinkRow
  articles : List ArticleRow
  sentiments : List SentimentRow
  usage_logs : List UsageRow
  pipeline_runs : List RunRow
  next_link_id : Nat
  next_article_id : Nat
deriving DecidableEq


/-- The freshly created database. -/
def emptyDB : DB := ⟨[], [], [], [], [], 1, 1⟩


/-- Does a link row with this url exist (the `UNIQUE` constraint on
`links.url`)? -/
def urlPresent (db : DB) (url : String) : Bool :=
  db.links.any (fun l => l.url == url)


/-- `database.add_link`: insert-if-absent on the unique locator; a duplicate
raises `IntegrityError`, which is caught and turned into `None`. -/
def add_link (db : DB) (url source : String) : Option Nat × DB :=
  if urlPresent db url then (none, db)
  else
    (some db.next_link_id,
      { db with
          links := db.links ++ [⟨db.next_link_id, url, source⟩],
          next_link_id := db.next_link_id + 1 })


/-- Does an article row with this url exist (the `UNIQUE` constraint on
`articles.url`)? -/
def articleUrlPresent (db : DB) (url : String) : Bool :=
  db.articles.any (fun a => a.url == url)


/-- `database.add_article`: insert-once on the unique article url; a
duplicate raises `IntegrityError`, caught and turned into `None`. -/
def add_article (db : DB) (link_id : Nat) (d : ArticleData) : Option Nat × DB :=
  if articleUrlPresent db d.url then (none, db)
  else
    (some db.next_article_id,
      { db with
          articles := db.articles ++
            [⟨db.next_article_id, link_id, d.url, d.title, d.author,
              d.publication_date, d.raw_text, d.cleaned_text, false⟩],
          next_article_id := db.next_article_id + 1 })


/-- Does the link already have an article (`LEFT JOIN articles ... WHERE
a.id IS NULL`)? -/
def hasArticleFor (db : DB) (link_id : Nat) : Bool :=
  db.articles.any (fun a => a.link_id == link_id)


/-- The shape of a `get_unscraped_links` result row. -/
structure UnscrapedLink where
  id : Nat
  url : String
  source : String
deriving DecidableEq


/-- `database.get_unscraped_links`: links with no corresponding article. -/
def get_unscraped_links (db : DB) : List UnscrapedLink :=
  (db.links.filter (fun l => !hasArticleFor db l.id)).map
    (fun l => ⟨l.id, l.url, l.source_website⟩)


/-- The shape of a `get_unanalyzed_articles` result row. -/
structure UnanalyzedArticle where
  id : Nat
  text : String
deriving DecidableEq


/-- The `WHERE` clause of `get_unanalyzed_articles`: `is_analyzed = 0 AND
cleaned_text != "N/A"` (the stored `cleaned_text` is a string in this model,
so the `IS NOT NULL` conjunct is always satisfied). -/
def unanalyzedFilter (a : ArticleRow) : Bool :=
  (a.is_analyzed == false) && (a.cleaned_text != "N/A")


/-- `database.get_unanalyzed_articles`. -/
def get_unanalyzed_articles (db : DB) : List UnanalyzedArticle :=
  (db.articles.filter unanalyzedFilter).map (fun a => ⟨a.id, a.cleaned_text⟩)


/-- `database.mark_article_as_analyzed`: `UPDATE articles SET is_analyzed = 1
WHERE id = ?`. -/
def mark_article_as_analyzed (db : DB) (article_id : Nat) : DB :=
  { db with
      articles := db.articles.map
        (fun a => if a.id == article_id then { a with is_analyzed := true } else a) }


/-- `database.add_sentiment`. -/
def add_sentiment (db : DB) (row : SentimentRow) : DB :=
  { db with sentiments := db.sentiments ++ [row] }


/-- `database.add_usage_log`. -/
def add_usage_log (db : DB) (article_id : Nat) (provider : String) : DB :=
  { db with usage_logs := db.usage_logs ++ [⟨article_id, provider⟩] }


/-- `database.add_pipeline_run`: unconditionally appends one summary row
(missing statistics default to 0, status defaults to "Completed" — the
caller always passes a status). -/
def add_pipeline_run (db : DB) (row : RunRow) : DB :=
  { db with pipeline_runs := db.pipeline_runs ++ [row] }


/-! ## Acquisition stage (`pipeline.run_scraping_pipeline`)

The `threading.Event` is modelled by a poll oracle `stop : Nat → Bool`: the
k-th call of `stop_event.is_set()` during the run reads `stop k`.  The poll
counter is threaded through the loops at exactly the poll sites of the
source. -/

/-- The oracle of a run during which no cancellation is ever requested. -/
def neverStop : Nat → Bool := fun _ => false


/-- The statistics dictionary returned by the acquisition stage. -/
structure ScrapeStats where
  new_links_found : Nat
  articles_scraped : Nat
deriving DecidableEq


/-- The inner url loop of phase 1: `if database.add_link(url, source):
new_links_found += 1` (the count moves only when the insert created a row —
a fresh SQLite rowid, which is truthy). -/
def addUrls (db : DB) (source : String) (count : Nat) :
    List String → DB × Nat
  | [] => (db, count)
  | url :: rest =>
    match add_link db url source with
    | (some _, db1) => addUrls db1 source (count + 1) rest
    | (none, db1) => addUrls db1 source count rest


/-- The result of the phase-1 scraper loop: whether the stage returned early
on a stop request, the database, the `new_links_found` count and the poll
counter. -/
structure LinkLoopRes where
  halted : Bool
  db : DB
  count : Nat
  polls : Nat
deriving DecidableEq


/-- Phase 1 of the acquisition stage: one iteration per scraper, polling the
stop event before each; a scraper whose `get_article_urls` raises is logged
and skipped. -/
def scrapeLinksLoop (stop : Nat → Bool) :
    List Scraper → DB → Nat → Nat → LinkLoopRes
  | [], db, count, polls => ⟨false, db, count, polls⟩
  | s :: rest, db, count, polls =>
    if stop polls then ⟨true, db, count, polls + 1⟩
    else
      match s.get_article_urls with
      | .error _ => scrapeLinksLoop stop rest db count (polls + 1)
      | .ok urls =>
        let p := addUrls db s.SOURCE_NAME count urls
        scrapeLinksLoop stop rest p.1 p.2 (polls + 1)


/-- The `scraper_map` lookup of phase 2: a Python dict comprehension over
the module list keyed by `SOURCE_NAME` (duplicate names: last wins). -/
def scraperMapGet (mods : List Scraper) (name : String) : Option Scraper :=
  mods.foldl (fun acc s => if s.SOURCE_NAME == name then some s else acc) none


/-- The result of the phase-2 link loop. -/
structure ArtLoopRes where
  db : DB
  count : Nat
  polls : Nat
deriving DecidableEq


/-- Phase 2 of the acquisition stage: one iteration per unscraped link,
polling the stop event before each (`break` on stop); a reference whose
source has no adapter in the map is skipped; a falsy or raising content
fetch is skipped; `articles_scraped_count` is incremented whenever a truthy
content dictionary was fetched (the count does not consult the result of
`add_article`). -/
def scrapeArticlesLoop (stop : Nat → Bool) (mods : List Scraper) :
    List UnscrapedLink → DB → Nat → Nat → ArtLoopRes
  | [], db, count, polls => ⟨db, count, polls⟩
  | link :: rest, db, count, polls =>
    if stop polls then ⟨db, count, polls + 1⟩
    else
      match scraperMapGet mods link.source with
      | none => scrapeArticlesLoop stop mods rest db count (polls + 1)
      | some s =>
        match s.scrape_article_content link.url with
        | .error _ => scrapeArticlesLoop stop mods rest db count (polls + 1)
        | .ok none => scrapeArticlesLoop stop mods rest db count (polls + 1)
        | .ok (some d) =>
          scrapeArticlesLoop stop mods rest (add_article db link.id d).2
            (count + 1) (polls + 1)


/-- The result of one stage call: its statistics dictionary, the database,
and the poll counter. -/
structure StageRes where
  stats : ScrapeStats
  db : DB
  polls : Nat
deriving DecidableEq


/-- `pipeline.run_scraping_pipeline`: phase 1 (reference discovery, early
return with partial counts on stop), a stop check between the phases
(phase 2 skipped entirely when set), then phase 2 (content fetch over
`get_unscraped_links`). -/
def run_scraping_pipeline (stop : Nat → Bool) (mods : List Scraper)
    (db : DB) (polls : Nat) : StageRes :=
  let r := scrapeLinksLoop stop mods db 0 polls
  if r.halted then ⟨⟨r.count, 0⟩, r.db, r.polls⟩
  else if stop r.polls then ⟨⟨r.count, 0⟩, r.db, r.polls + 1⟩
  else
    let todo := get_unscraped_links r.db
    let r2 := scrapeArticlesLoop stop mods todo r.db 0 (r.polls + 1)
    ⟨⟨r.count, r2.count⟩, r2.db, r2.polls⟩


/-! ## Extraction stage (`pipeline.run_analysis_pipeline`) -/

/-- One entity/sentiment result of the extractor. -/
structure Entity where
  entity_name : String
  entity_type : String
  financial_sentiment : String
  overall_sentiment : String
  reasoning : String
deriving DecidableEq


/-- Usage metadata returned alongside an extraction (detail irrelevant to
the claims). -/
structure Usage where
  total_tokens : Nat
deriving DecidableEq


/-- The `SentimentAnalyzer` collaborator: a provider name and a
deterministic `analyze_text_for_sentiment`; `Except.error` models a raised
exception. -/
structure Analyzer where
  provider : String
  analyze_text_for_sentiment : String → Except String (List Entity × Option Usage)


/-- The per-entity loop: `database.add_sentiment(...)` then
`sentiments_found_count += 1` for each extracted entity. -/
def addSentiments (db : DB) (article_id : Nat) :
    List Entity → Nat → DB × Nat
  | [], count => (db, count)
  | e :: es, count =>
    addSentiments
      (add_sentiment db ⟨article_id, e.entity_name, e.entity_type,
        e.financial_sentiment, e.overall_sentiment, e.reasoning⟩)
      article_id es (count + 1)


/-- The article loop of the extraction stage: poll the stop event before
each item (`break` on stop); on success, log usage if present, persist each
entity, then mark the article analyzed — also when zero entities were
extracted; a raising item is logged and left unmarked, and the loop
continues. -/
def analysisLoop (stop : Nat → Bool) (an : Analyzer) :
    List UnanalyzedArticle → DB → Nat → Nat → ArtLoopRes
  | [], db, count, polls => ⟨db, count, polls⟩
  | art :: rest, db, count, polls =>
    if stop polls then ⟨db, count, polls + 1⟩
    else
      match an.analyze_text_for_sentiment art.text with
      | .error _ => analysisLoop stop an rest db count (polls + 1)
      | .ok (entities, usage) =>
        let db1 :=
          match usage with
          | some _ => add_usage_log db art.id an.provider
          | none => db
        let p := addSentiments db1 art.id entities count
        let db3 := mark_article_as_analyzed p.1 art.id
        analysisLoop stop an rest db3 p.2 (polls + 1)


/-- The statistics dictionary returned by the extraction stage. -/
structure AnalysisStats where
  entities_analyzed : Nat
deriving DecidableEq


/-- The result of the extraction stage. -/
structure AnaRes where
  stats : AnalysisStats
  db : DB
  polls : Nat
deriving DecidableEq


/-- `pipeline.run_analysis_pipeline`: analyzer construction failure is fatal
to the stage only (zero results); otherwise loop over
`get_unanalyzed_articles`. -/
def run_analysis_pipeline (stop : Nat → Bool)
    (ainit : Except String Analyzer) (db : DB) (polls : Nat) : AnaRes :=
  match ainit with
  | .error _ => ⟨⟨0⟩, db, polls⟩
  | .ok an =>
    let arts := get_unanalyzed_articles db
    let r := analysisLoop stop an arts db 0 polls
    ⟨⟨r.count⟩, r.db, r.polls⟩


/-- All urls an adapter in the list can successfully report are already
present as link rows. -/
def linksSat (db : DB) (mods : List Scraper) : Prop :=
  ∀ s ∈ mods, ∀ urls, s.get_article_urls = Except.ok urls →
    ∀ u ∈ urls, urlPresent db u = true


/-- Every still-unscraped link whose adapter can successfully fetch a truthy
content dictionary has that content's url already stored (so the insert-once
guard makes a re-fetch a no-op). -/
def contentSat (db : DB) (mods : List Scraper) : Prop :=
  ∀ l ∈ get_unscraped_links db, ∀ s, scraperMapGet mods l.source = some s →
    ∀ d, s.scrape_article_content l.url = Except.ok (some d) →
      articleUrlPresent db d.url = true


/-! ### Store-state predicates used by the stage theorems -/

/-- Every article row with this id carries `is_analyzed = true`. -/
def markedAll (db : DB) (x : Nat) : Prop :=
  ∀ a ∈ db.articles, a.id = x → a.is_analyzed = true


/-- The article rows with a given id (used to show an unmarked item's rows
survive a run unchanged). -/
def rowsOfId (db : DB) (x : Nat) : List ArticleRow :=
  db.articles.filter (fun a => a.id == x)


/-! ## Job controller (`app.py`)

`pipeline_status_tracker` is the process-wide JobState dictionary; the
`stop_event` entry is modelled by whether a cancellation handle is
installed. -/

/-- The `pipeline_status_tracker` dictionary. -/
structure Tracker where
  is_running : Bool
  status : String
  progress : Nat
  total : Nat
  current_task : String
  has_stop_event : Bool
deriving DecidableEq


/-- The idle shape: the tracker's initial value, and the value the
`finally` blocks restore. -/
def idleTracker : Tracker := ⟨false, "Idle", 0, 0, "N/A", false⟩


/-- The `/api/pipeline_status` snapshot: a copy of the tracker with the
`stop_event` entry popped. -/
structure StatusView where
  is_running : Bool
  status : String
  progress : Nat
  total : Nat
  current_task : String
deriving DecidableEq


/-- `get_pipeline_status` of `app.py`. -/
def get_pipeline_status (t : Tracker) : StatusView :=
  ⟨t.is_running, t.status, t.progress, t.total, t.current_task⟩


/-- The observable outcome of one concrete `pipeline_task` execution. -/
structure TaskRunRes where
  tracker : Tracker
  db : DB
  analysisInvoked : Bool
  persisted : RunRow


/-- The body of `pipeline_task` in `trigger_pipeline` (concrete stages):
run the acquisition stage; poll the stop event — only if it is unset, run
the extraction stage; poll again to derive the run status ("Stopped by
user" when set, else "Completed"); merge the stage statistics with the
status into one summary and persist it; `finally`, reset the tracker to the
idle shape.  In this model the stages are total, so the `except` branch of
the source cannot be taken (exception paths are covered by the
stage-outcome model `pipeline_task`). -/
def pipeline_task_run (stop : Nat → Bool) (mods : List Scraper)
    (ainit : Except String Analyzer) (db : DB) : TaskRunRes :=
  let s := run_scraping_pipeline stop mods db 0
  let skip := stop s.polls
  let a :=
    if skip then (⟨⟨0⟩, s.db, s.polls + 1⟩ : AnaRes)
    else run_analysis_pipeline stop ainit s.db (s.polls + 1)
  let run_status := if stop a.polls then "Stopped by user" else "Completed"
  let row : RunRow := ⟨s.stats.new_links_found, s.stats.articles_scraped,
    a.stats.entities_analyzed, run_status⟩
  ⟨idleTracker, add_pipeline_run a.db row, !skip, row⟩


/-- Stage outcomes of one run-body execution seen from the controller:
each stage either returns its statistics dictionary or raises.
`stopAfterScrape` is the value of `stop_event.is_set()` at the poll that
guards the extraction stage; `stopAtFinalCheck` the value at the poll that
derives the run status. -/
structure RunInput where
  scrapeOutcome : Except String ScrapeStats
  analysisOutcome : Except String AnalysisStats
  stopAfterScrape : Bool
  stopAtFinalCheck : Bool


/-- What a controller body execution leaves behind. -/
structure CtrlResult where
  tracker : Tracker
  persisted : RunRow
  analysisInvoked : Bool


/-- `pipeline_task` of `trigger_pipeline` over abstract stage outcomes:
the `try` body runs acquisition, guards extraction behind a stop poll,
derives the status from a second poll and persists the merged summary; the
`except` branch persists a summary whose only field is the `Failed` status
(counts default to 0); the `finally` branch resets the tracker to idle. -/
def pipeline_task (inp : RunInput) : CtrlResult :=
  match inp.scrapeOutcome with
  | .error e => ⟨idleTracker, ⟨0, 0, 0, "Failed: " ++ e⟩, false⟩
  | .ok ss =>
    if inp.stopAfterScrape then
      let st := if inp.stopAtFinalCheck then "Stopped by user" else "Completed"
      ⟨idleTracker, ⟨ss.new_links_found, ss.articles_scraped, 0, st⟩, false⟩
    else
      match inp.analysisOutcome with
      | .error e => ⟨idleTracker, ⟨0, 0, 0, "Failed: " ++ e⟩, true⟩
      | .ok as_ =>
        let st := if inp.stopAtFinalCheck then "Stopped by user" else "Completed"
        ⟨idleTracker,
          ⟨ss.new_links_found, ss.articles_scraped, as_.entities_analyzed, st⟩,
          true⟩


/-- The body of `scheduled_pipeline_run` over abstract stage outcomes: it
runs both stages back to back with no stop poll between them, always labels
a non-raising run "Completed", persists a zero-count `Failed` summary when
a stage raises, and resets the tracker in its `finally` branch. -/
def scheduled_body (inp : RunInput) : CtrlResult :=
  match inp.scrapeOutcome with
  | .error e => ⟨idleTracker, ⟨0, 0, 0, "Failed: " ++ e⟩, false⟩
  | .ok ss =>
    match inp.analysisOutcome with
    | .error e => ⟨idleTracker, ⟨0, 0, 0, "Failed: " ++ e⟩, true⟩
    | .ok as_ =>
      ⟨idleTracker,
        ⟨ss.new_links_found, ss.articles_scraped, as_.entities_analyzed,
          "Completed"⟩,
        true⟩


/-- The observable outcome of one `scheduled_pipeline_run` invocation. -/
structure SchedRes where
  tracker : Tracker
  db : DB
  reg : RegistryState
  ranBody : Bool
  analysisInvoked : Bool
  persisted : Option RunRow


/-- `scheduled_pipeline_run` of `app.py` with concrete stages: skip when a
run is already active; abort when no scrapers are found; otherwise run the
body — acquisition, then extraction *unconditionally* (the source polls no
stop event between the stages and never rebinds `run_status`), and persist
the summary with status "Completed"; `finally`, reset the tracker. -/
def scheduled_pipeline_run (stop : Nat → Bool) (env : List Candidate)
    (st : RegistryState) (t : Tracker) (ainit : Except String Analyzer)
    (db : DB) : SchedRes :=
  if t.is_running then ⟨t, db, st, false, false, none⟩
  else
    let r := get_scraper_modules env st none
    if r.1.isEmpty then ⟨t, db, r.2, false, false, none⟩
    else
      let s := run_scraping_pipeline stop r.1 db 0
      let a := run_analysis_pipeline stop ainit s.db s.polls
      let row : RunRow := ⟨s.stats.new_links_found, s.stats.articles_scraped,
        a.stats.entities_analyzed, "Completed"⟩
      ⟨idleTracker, add_pipeline_run a.db row, r.2, true, true, some row⟩


/-! ## Admission state machine (`trigger_pipeline` and the worker thread)

`trigger_pipeline` checks `is_running`, then spawns a daemon thread running
`pipeline_task`; `is_running` is set by the spawned task once it begins
executing, not by the handler.  The model therefore separates the handler
step from the task-start and task-finish steps: `pendingTasks` counts
spawned threads that have not yet begun executing, `activeRuns` counts
bodies currently executing. -/

/-- Process state seen by the admission logic. -/
structure SysState where
  tracker : Tracker
  pendingTasks : Nat
  activeRuns : Nat
deriving DecidableEq


/-- The state at process start. -/
def initSys : SysState := ⟨idleTracker, 0, 0⟩


/-- HTTP-level responses of the controller endpoints. -/
inductive Resp where
  | accepted202
  | badRequest400
  | conflict409
  | notFound404
  | serverError500
deriving DecidableEq


/-- The `trigger_pipeline` handler: reject with 409 while `is_running` is
true; resolve the requested scrapers and reject with 400 when none are
valid; otherwise spawn the background task (202). -/
def trigger_pipeline_step (reg : List (String × Scraper))
    (names : Option (List String)) (s : SysState) : Resp × SysState :=
  if s.tracker.is_running then (.conflict409, s)
  else
    let mods := resolve_scrapers reg names
    if mods.isEmpty then (.badRequest400, s)
    else (.accepted202, { s with pendingTasks := s.pendingTasks + 1 })


/-- A spawned `pipeline_task` thread begins executing: it unconditionally
sets `is_running := true` and installs its stop event. -/
def task_start_step (s : SysState) : SysState :=
  if s.pendingTasks == 0 then s
  else
    { tracker := { s.tracker with is_running := true, has_stop_event := true },
      pendingTasks := s.pendingTasks - 1,
      activeRuns := s.activeRuns + 1 }


/-- A running `pipeline_task` terminates: its `finally` block resets the
tracker to the idle shape. -/
def task_finish_step (s : SysState) : SysState :=
  if s.activeRuns == 0 then s
  else { s with tracker := idleTracker, activeRuns := s.activeRuns - 1 }


/-- The `/api/stop_pipeline` handler: 404 when no run is active, otherwise
set the stop event and mark the status "Stopping...". -/
def stop_pipeline_step (s : SysState) : Resp × SysState :=
  if s.tracker.is_running = false then (.notFound404, s)
  else if s.tracker.has_stop_event then
    (.accepted202, { s with tracker := { s.tracker with status := "Stopping..." } })
  else (.serverError500, s)


/-! ## Concrete inputs used by evaluations and witnesses -/

/-- An adapter that reports one url and fetches no content. -/
def scraperA : Scraper := ⟨"A", .ok ["uA"], fun _ => .ok none⟩


/-- A second such adapter. -/
def scraperB : Scraper := ⟨"B", .ok ["uB"], fun _ => .ok none⟩


/-- A one-adapter registry mapping. -/
def regC : List (String × Scraper) := [("A", scraperA)]


/-- A scrapers directory holding the two adapters above. -/
def envC2 : List Candidate :=
  [⟨true, true, true, scraperA⟩, ⟨true, true, true, scraperB⟩]


/-- An extractor that finds no entities and reports no usage. -/
def anW : Analyzer := ⟨"openai", fun _ => .ok ([], none)⟩


/-- A stop oracle that is set from the second poll on: the cancellation
request arrives while the first unit of work is being processed. -/
def stopAt1 : Nat → Bool := fun n => Nat.ble 1 n


/-- A database holding one unanalyzed article. -/
def dbC5 : DB :=
  ⟨[], [⟨1, 1, "u1", "t", "au", "d", "raw", "clean", false⟩], [], [], [], 2, 2⟩


/-- The `get_unanalyzed_articles` row of `dbC5`. -/
def aC5 : UnanalyzedArticle := ⟨1, "clean"⟩


/-- A database holding two unanalyzed articles with texts "t1" and "t2". -/
def dbC6 : DB :=
  ⟨[], [⟨1, 1, "u1", "t", "au", "d", "raw", "t1", false⟩,
        ⟨2, 2, "u2", "t", "au", "d", "raw", "t2", false⟩], [], [], [], 3, 3⟩


/-- One extracted entity. -/
def entW : Entity := ⟨"Acme", "company", "positive", "positive", "r"⟩


/-- An extractor that raises on the text "t1" and succeeds with one entity
on every other text. -/
def anC6 : Analyzer :=
  ⟨"openai", fun t => if t == "t1" then .error "boom"
    else .ok ([entW], some ⟨7⟩)⟩


/-! ## Theorems -/

/-! ### Registry lemmas -/

/-- Every entry the scan produces is keyed by its module's `SOURCE_NAME`. -/
theorem dictInsert_key_eq_name
    (d : List (String × Scraper)) (v : Scraper)
    (hd : ∀ p ∈ d, p.2.SOURCE_NAME = p.1) :
    ∀ p ∈ dictInsert d v.SOURCE_NAME v, p.2.SOURCE_NAME = p.1 := by
  intro p hp
  unfold dictInsert at hp
  by_cases h : d.any (fun p => p.1 == v.SOURCE_NAME)
  · simp only [h, if_pos] at hp
    rcases List.mem_map.mp hp with ⟨q, hq, hqe⟩
    by_cases hk : q.1 == v.SOURCE_NAME
    · simp only [hk, if_pos] at hqe
      subst hqe; rfl
    · simp only [hk, if_neg, Bool.false_eq_true, not_false_iff] at hqe
      subst hqe; exact hd q hq
  · simp only [h, if_neg, Bool.false_eq_true, not_false_iff,
      List.mem_append, List.mem_singleton] at hp
    rcases hp with hp | hp
    · exact hd p hp
    · subst hp; rfl


theorem discover_once_key_eq_name (env : List Candidate) :
    ∀ p ∈ discover_once env, p.2.SOURCE_NAME = p.1 := by
  unfold discover_once
  suffices h : ∀ (acc : List (String × Scraper)),
      (∀ p ∈ acc, p.2.SOURCE_NAME = p.1) →
      ∀ p ∈ env.foldl
        (fun acc c =>
          if c.filename_ok && c.import_ok && c.attrs_ok then
            dictInsert acc c.module.SOURCE_NAME c.module
          else acc) acc, p.2.SOURCE_NAME = p.1 by
    exact h [] (by intro p hp; cases hp)
  induction env with
  | nil => intro acc hacc p hp; exact hacc p hp
  | cons c cs ih =>
    intro acc hacc p hp
    simp only [List.foldl_cons] at hp
    by_cases hc : c.filename_ok && c.import_ok && c.attrs_ok
    · simp only [hc, if_pos] at hp
      exact ih _ (dictInsert_key_eq_name acc c.module hacc) p hp
    · simp only [hc, if_neg, Bool.false_eq_true, not_false_iff] at hp
      exact ih acc hacc p hp


theorem dictGet_some_name (d : List (String × Scraper)) (n : String)
    (m : Scraper) (hd : ∀ p ∈ d, p.2.SOURCE_NAME = p.1)
    (h : dictGet d n = some m) : m.SOURCE_NAME = n := by
  unfold dictGet at h
  rcases hfind : d.find? (fun p => p.1 == n) with _ | q
  · rw [hfind] at h; cases h
  · rw [hfind] at h
    have hq := List.find?_some hfind
    have hmem : q ∈ d := List.mem_of_find?_eq_some hfind
    have hm : m = q.2 := by
      simp only [Option.map] at h
      injection h with h'
      exact h'.symm
    rw [hm, hd q hmem]
    exact eq_of_beq hq


theorem dictGet_some_contains (d : List (String × Scraper)) (n : String)
    (m : Scraper) (h : dictGet d n = some m) :
    d.any (fun p => p.1 == n) = true := by
  unfold dictGet at h
  rcases hfind : d.find? (fun p => p.1 == n) with _ | q
  · rw [hfind] at h; cases h
  · have hq := List.find?_some hfind
    have hmem : q ∈ d := List.mem_of_find?_eq_some hfind
    exact List.any_eq_true.mpr ⟨q, hmem, hq⟩


theorem dictGet_none_not_contains (d : List (String × Scraper)) (n : String)
    (h : dictGet d n = none) : d.any (fun p => p.1 == n) = false := by
  unfold dictGet at h
  rcases hfind : d.find? (fun p => p.1 == n) with _ | q
  · have := List.find?_eq_none.mp hfind
    simp only [List.any_eq_false]
    intro p hp
    simpa using this p hp
  · rw [hfind] at h; cases h


/-- C7 resolve core: the adapters returned for a name list are exactly the
registered names among them, in request order. -/
theorem resolve_names (d : List (String × Scraper)) (ns : List String)
    (hd : ∀ p ∈ d, p.2.SOURCE_NAME = p.1) :
    (resolve_scrapers d (some ns)).map (fun s => s.SOURCE_NAME)
      = ns.filter (fun n => d.any (fun p => p.1 == n)) := by
  induction ns with
  | nil => rfl
  | cons n rest ih =>
    simp only [resolve_scrapers, List.filterMap_cons, List.filter_cons]
    rcases hg : dictGet d n with _ | m
    · rw [dictGet_none_not_contains d n hg]
      simpa [resolve_scrapers] using ih
    · rw [dictGet_some_contains d n m hg]
      simp only [List.map_cons, dictGet_some_name d n m hd hg, if_pos]
      have ih' : (List.filterMap (fun n => dictGet d n) rest).map
          (fun s => s.SOURCE_NAME)
            = rest.filter (fun n => d.any (fun p => p.1 == n)) := by
        simpa [resolve_scrapers] using ih
      rw [ih']


/-! ### Claim C7: resolution of adapters by name -/

/-- C7: when called with no name list, resolution returns every discovered
adapter; with a list of names it returns exactly the adapters whose names
are registered, in the order requested, silently dropping unknown names and
possibly returning fewer adapters than names requested. -/
theorem get_scraper_modules_resolution (env : List Candidate) (ns : List String) :
    (get_scraper_modules env regInit none).1
        = (discover_once env).map (fun p => p.2)
    ∧ (get_scraper_modules env regInit (some ns)).1.map (fun s => s.SOURCE_NAME)
        = ns.filter (fun n => (discover_once env).any (fun p => p.1 == n))
    ∧ (get_scraper_modules env regInit (some ns)).1.length ≤ ns.length := by
  refine ⟨rfl, ?_, ?_⟩
  · have h1 : (get_scraper_modules env regInit (some ns)).1
        = resolve_scrapers (discover_once env) (some ns) := rfl
    rw [h1]
    exact resolve_names (discover_once env) ns (discover_once_key_eq_name env)
  · have h1 : (get_scraper_modules env regInit (some ns)).1
        = ns.filterMap (fun n => dictGet (discover_once env) n) := rfl
    rw [h1]
    exact List.length_filterMap_le _ _


/-! ### Claim C8: memoization of discovery -/

/-- C8 counterexample: the cache is consulted by truthiness
(`if _scraper_cache:`), so a process whose first scan discovers an empty
mapping re-scans the directory on the next discovery call.  Against the
claim that "every repeated discovery call returns the same cached mapping
without re-scanning", the second call performs a second scan. -/
theorem discover_scrapers_empty_rescans :
    ((discover_scrapers [] (discover_scrapers [] regInit).2).2).scans
        ≠ ((discover_scrapers [] regInit).2).scans
    ∧ ((discover_scrapers [] (discover_scrapers [] regInit).2).2).scans = 2 := by
  constructor
  · decide
  · rfl


/-- C8 (amended): once a discovery call leaves a non-empty cache, every
later discovery call — with any directory contents — returns that same
cached mapping and does not change the registry state (no re-scan). -/
theorem discover_scrapers_memoized (env env2 : List Candidate)
    (st : RegistryState) (h : (discover_scrapers env st).2.cache ≠ []) :
    discover_scrapers env2 (discover_scrapers env st).2
      = ((discover_scrapers env st).1, (discover_scrapers env st).2) := by
  by_cases hc : st.cache.isEmpty
  · have hfst : discover_scrapers env st
        = (discover_once env, ⟨discover_once env, st.scans + 1⟩) := by
      unfold discover_scrapers
      rw [if_pos hc]
    rw [hfst] at h ⊢
    simp only at h ⊢
    unfold discover_scrapers
    rw [if_neg (by simpa [List.isEmpty_iff] using h)]
  · have hfst : discover_scrapers env st = (st.cache, st) := by
      unfold discover_scrapers
      rw [if_neg (by simpa using hc)]
    rw [hfst] at h ⊢
    unfold discover_scrapers
    rw [if_neg (by simpa [List.isEmpty_iff] using h)]


theorem envW_cache_ne : (discover_scrapers envW regInit).2.cache ≠ [] := by
  simp [discover_scrapers, discover_once, envW, dictInsert, regInit]


/-- Witness for the amended C8 theorem at a concrete one-adapter directory. -/
theorem discover_scrapers_memoized_w :
    (discover_scrapers envW regInit).2.cache ≠ []
    ∧ discover_scrapers envW (discover_scrapers envW regInit).2
        = ((discover_scrapers envW regInit).1, (discover_scrapers envW regInit).2) :=
  ⟨envW_cache_ne, discover_scrapers_memoized envW envW regInit envW_cache_ne⟩


/-! ### Acquisition-stage lemmas (towards claim C4) -/

theorem urlPresent_mono (db db' : DB) (ext : List LinkRow)
    (hl : db'.links = db.links ++ ext) (u : String)
    (h : urlPresent db u = true) : urlPresent db' u = true := by
  unfold urlPresent at h ⊢
  rw [hl, List.any_append, h, Bool.true_or]


theorem addUrls_links_ext (urls : List String) :
    ∀ db source count, ∃ ext,
      (addUrls db source count urls).1.links = db.links ++ ext := by
  induction urls with
  | nil => intro db source count; exact ⟨[], by simp [addUrls]⟩
  | cons u rest ih =>
    intro db source count
    by_cases h : urlPresent db u
    · have : addUrls db source count (u :: rest)
          = addUrls db source count rest := by
        simp [addUrls, add_link, h]
      rw [this]; exact ih db source count
    · have hstep : addUrls db source count (u :: rest)
          = addUrls (add_link db u source).2 source (count + 1) rest := by
        simp [addUrls, add_link, h]
      rw [hstep]
      rcases ih (add_link db u source).2 source (count + 1) with ⟨ext, hext⟩
      refine ⟨⟨db.next_link_id, u, source⟩ :: ext, ?_⟩
      rw [hext]
      simp [add_link, h]


theorem addUrls_articles (urls : List String) :
    ∀ db source count, (addUrls db source count urls).1.articles = db.articles := by
  induction urls with
  | nil => intro db source count; simp [addUrls]
  | cons u rest ih =>
    intro db source count
    by_cases h : urlPresent db u
    · have : addUrls db source count (u :: rest)
          = addUrls db source count rest := by
        simp [addUrls, add_link, h]
      rw [this]; exact ih db source count
    · have hstep : addUrls db source count (u :: rest)
          = addUrls (add_link db u source).2 source (count + 1) rest := by
        simp [addUrls, add_link, h]
      rw [hstep, ih]
      simp [add_link, h]


theorem addUrls_mono_present (urls : List String) (db : DB)
    (source : String) (count : Nat) (u : String)
    (h : urlPresent db u = true) :
    urlPresent (addUrls db source count urls).1 u = true := by
  rcases addUrls_links_ext urls db source count with ⟨ext, hext⟩
  exact urlPresent_mono db _ ext hext u h


theorem addUrls_sat (urls : List String) :
    ∀ db source count, ∀ u ∈ urls,
      urlPresent (addUrls db source count urls).1 u = true := by
  induction urls with
  | nil => intro db source count u hu; cases hu
  | cons u0 rest ih =>
    intro db source count u hu
    by_cases h : urlPresent db u0
    · have hstep : addUrls db source count (u0 :: rest)
          = addUrls db source count rest := by
        simp [addUrls, add_link, h]
      rw [hstep]
      rcases List.mem_cons.mp hu with rfl | hmem
      · exact addUrls_mono_present rest db source count u h
      · exact ih db source count u hmem
    · have hstep : addUrls db source count (u0 :: rest)
          = addUrls (add_link db u0 source).2 source (count + 1) rest := by
        simp [addUrls, add_link, h]
      rw [hstep]
      rcases List.mem_cons.mp hu with rfl | hmem
      · refine addUrls_mono_present rest _ source (count + 1) u ?_
        have hlink : (add_link db u source).2.links
            = db.links ++ [⟨db.next_link_id, u, source⟩] := by
          simp [add_link, h]
        unfold urlPresent
        rw [hlink, List.any_append]
        simp
      · exact ih _ source (count + 1) u hmem


theorem addUrls_noop (urls : List String) :
    ∀ db source count, (∀ u ∈ urls, urlPresent db u = true) →
      addUrls db source count urls = (db, count) := by
  induction urls with
  | nil => intro db source count _; simp [addUrls]
  | cons u rest ih =>
    intro db source count hall
    have hp : urlPresent db u = true := hall u (List.mem_cons_self u rest)
    have hstep : addUrls db source count (u :: rest)
        = addUrls db source count rest := by
      simp [addUrls, add_link, hp]
    rw [hstep]
    exact ih db source count (fun u' hu' => hall u' (List.mem_cons_of_mem u hu'))


theorem addUrls_count (urls : List String) :
    ∀ db source count,
      (addUrls db source count urls).1.links.length + count
        = db.links.length + (addUrls db source count urls).2 := by
  induction urls with
  | nil => intro db source count; simp [addUrls]
  | cons u rest ih =>
    intro db source count
    by_cases h : urlPresent db u
    · have hstep : addUrls db source count (u :: rest)
          = addUrls db source count rest := by
        simp [addUrls, add_link, h]
      rw [hstep]; exact ih db source count
    · have hstep : addUrls db source count (u :: rest)
          = addUrls (add_link db u source).2 source (count + 1) rest := by
        simp [addUrls, add_link, h]
      rw [hstep]
      have := ih (add_link db u source).2 source (count + 1)
      have hlen : (add_link db u source).2.links.length = db.links.length + 1 := by
        simp [add_link, h]
      omega


theorem linksSat_of_links_eq (db db' : DB) (mods : List Scraper)
    (hl : db'.links = db.links) (h : linksSat db mods) : linksSat db' mods := by
  intro s hs urls hurls u hu
  have := h s hs urls hurls u hu
  unfold urlPresent at this ⊢
  rw [hl]; exact this


theorem scrapeLinksLoop_nil (stop : Nat → Bool) (db : DB) (count polls : Nat) :
    scrapeLinksLoop stop [] db count polls = ⟨false, db, count, polls⟩ := rfl


theorem scrapeLinksLoop_halt (stop : Nat → Bool) (s : Scraper)
    (rest : List Scraper) (db : DB) (count polls : Nat)
    (hst : stop polls = true) :
    scrapeLinksLoop stop (s :: rest) db count polls
      = ⟨true, db, count, polls + 1⟩ := by
  rw [scrapeLinksLoop, hst, if_pos rfl]


theorem scrapeLinksLoop_err (stop : Nat → Bool) (s : Scraper)
    (rest : List Scraper) (db : DB) (count polls : Nat) (e : String)
    (hst : stop polls = false) (hg : s.get_article_urls = .error e) :
    scrapeLinksLoop stop (s :: rest) db count polls
      = scrapeLinksLoop stop rest db count (polls + 1) := by
  rw [scrapeLinksLoop, hst, if_neg (by simp), hg]


theorem scrapeLinksLoop_ok (stop : Nat → Bool) (s : Scraper)
    (rest : List Scraper) (db : DB) (count polls : Nat) (urls : List String)
    (hst : stop polls = false) (hg : s.get_article_urls = .ok urls) :
    scrapeLinksLoop stop (s :: rest) db count polls
      = scrapeLinksLoop stop rest (addUrls db s.SOURCE_NAME count urls).1
          (addUrls db s.SOURCE_NAME count urls).2 (polls + 1) := by
  rw [scrapeLinksLoop, hst, if_neg (by simp), hg]


theorem scrapeLinksLoop_links_ext (stop : Nat → Bool) (mods : List Scraper) :
    ∀ db count polls, ∃ ext,
      (scrapeLinksLoop stop mods db count polls).db.links = db.links ++ ext := by
  induction mods with
  | nil => intro db count polls; exact ⟨[], by simp [scrapeLinksLoop_nil]⟩
  | cons s rest ih =>
    intro db count polls
    by_cases hst : stop polls
    · rw [scrapeLinksLoop_halt stop s rest db count polls hst]
      exact ⟨[], by simp⟩
    · have hst' : stop polls = false := by simpa using hst
      rcases hg : s.get_article_urls with e | urls
      · rw [scrapeLinksLoop_err stop s rest db count polls e hst' hg]
        exact ih db count (polls + 1)
      · rw [scrapeLinksLoop_ok stop s rest db count polls urls hst' hg]
        rcases addUrls_links_ext urls db s.SOURCE_NAME count with ⟨ext1, hext1⟩
        rcases ih (addUrls db s.SOURCE_NAME count urls).1
          (addUrls db s.SOURCE_NAME count urls).2 (polls + 1) with ⟨ext2, hext2⟩
        exact ⟨ext1 ++ ext2, by rw [hext2, hext1, List.append_assoc]⟩


theorem scrapeLinksLoop_articles (stop : Nat → Bool) (mods : List Scraper) :
    ∀ db count polls,
      (scrapeLinksLoop stop mods db count polls).db.articles = db.articles := by
  induction mods with
  | nil => intro db count polls; rw [scrapeLinksLoop_nil]
  | cons s rest ih =>
    intro db count polls
    by_cases hst : stop polls
    · rw [scrapeLinksLoop_halt stop s rest db count polls hst]
    · have hst' : stop polls = false := by simpa using hst
      rcases hg : s.get_article_urls with e | urls
      · rw [scrapeLinksLoop_err stop s rest db count polls e hst' hg]
        exact ih db count (polls + 1)
      · rw [scrapeLinksLoop_ok stop s rest db count polls urls hst' hg, ih,
          addUrls_articles]


theorem scrapeLinksLoop_not_halted (stop : Nat → Bool)
    (hstop : ∀ n, stop n = false) (mods : List Scraper) :
    ∀ db count polls,
      (scrapeLinksLoop stop mods db count polls).halted = false := by
  induction mods with
  | nil => intro db count polls; rw [scrapeLinksLoop_nil]
  | cons s rest ih =>
    intro db count polls
    rcases hg : s.get_article_urls with e | urls
    · rw [scrapeLinksLoop_err stop s rest db count polls e (hstop polls) hg]
      exact ih db count (polls + 1)
    · rw [scrapeLinksLoop_ok stop s rest db count polls urls (hstop polls) hg]
      exact ih _ _ (polls + 1)


theorem scrapeLinksLoop_sat (stop : Nat → Bool)
    (hstop : ∀ n, stop n = false) (mods : List Scraper) :
    ∀ db count polls,
      linksSat (scrapeLinksLoop stop mods db count polls).db mods := by
  induction mods with
  | nil => intro db count polls s hs; cases hs
  | cons s0 rest ih =>
    intro db count polls s hs urls hurls u hu
    rcases hg : s0.get_article_urls with e | urls0
    · rw [scrapeLinksLoop_err stop s0 rest db count polls e (hstop polls) hg]
      rcases List.mem_cons.mp hs with rfl | hmem
      · rw [hg] at hurls; cases hurls
      · exact ih db count (polls + 1) s hmem urls hurls u hu
    · rw [scrapeLinksLoop_ok stop s0 rest db count polls urls0 (hstop polls) hg]
      rcases List.mem_cons.mp hs with rfl | hmem
      · rw [hg] at hurls
        injection hurls with hurls
        subst hurls
        rcases scrapeLinksLoop_links_ext stop rest
          (addUrls db s.SOURCE_NAME count urls0).1
          (addUrls db s.SOURCE_NAME count urls0).2 (polls + 1) with ⟨ext, hext⟩
        exact urlPresent_mono _ _ ext hext u
          (addUrls_sat urls0 db s.SOURCE_NAME count u hu)
      · exact ih _ _ (polls + 1) s hmem urls hurls u hu


theorem scrapeLinksLoop_noop (stop : Nat → Bool)
    (hstop : ∀ n, stop n = false) (mods : List Scraper) :
    ∀ db count polls, linksSat db mods →
      scrapeLinksLoop stop mods db count polls
        = ⟨false, db, count, polls + mods.length⟩ := by
  induction mods with
  | nil => intro db count polls _; rw [scrapeLinksLoop_nil]; rfl
  | cons s rest ih =>
    intro db count polls hsat
    rcases hg : s.get_article_urls with e | urls
    · rw [scrapeLinksLoop_err stop s rest db count polls e (hstop polls) hg,
        ih db count (polls + 1)
          (fun s' hs' => hsat s' (List.mem_cons_of_mem s hs'))]
      simp only [LinkLoopRes.mk.injEq, List.length_cons, true_and]
      omega
    · have hall : ∀ u ∈ urls, urlPresent db u = true :=
        hsat s (List.mem_cons_self s rest) urls hg
      rw [scrapeLinksLoop_ok stop s rest db count polls urls (hstop polls) hg,
        addUrls_noop urls db s.SOURCE_NAME count hall]
      show scrapeLinksLoop stop rest db count (polls + 1) = _
      rw [ih db count (polls + 1)
        (fun s' hs' => hsat s' (List.mem_cons_of_mem s hs'))]
      simp only [LinkLoopRes.mk.injEq, List.length_cons, true_and]
      omega


theorem scrapeLinksLoop_count (stop : Nat → Bool) (mods : List Scraper) :
    ∀ db count polls,
      (scrapeLinksLoop stop mods db count polls).db.links.length + count
        = db.links.length + (scrapeLinksLoop stop mods db count polls).count := by
  induction mods with
  | nil => intro db count polls; rw [scrapeLinksLoop_nil]
  | cons s rest ih =>
    intro db count polls
    by_cases hst : stop polls
    · rw [scrapeLinksLoop_halt stop s rest db count polls hst]
    · have hst' : stop polls = false := by simpa using hst
      rcases hg : s.get_article_urls with e | urls
      · rw [scrapeLinksLoop_err stop s rest db count polls e hst' hg]
        exact ih db count (polls + 1)
      · rw [scrapeLinksLoop_ok stop s rest db count polls urls hst' hg]
        have h1 := ih (addUrls db s.SOURCE_NAME count urls).1
          (addUrls db s.SOURCE_NAME count urls).2 (polls + 1)
        have h2 := addUrls_count urls db s.SOURCE_NAME count
        omega


theorem articleUrlPresent_mono (db db' : DB) (ext : List ArticleRow)
    (hl : db'.articles = db.articles ++ ext) (u : String)
    (h : articleUrlPresent db u = true) : articleUrlPresent db' u = true := by
  unfold articleUrlPresent at h ⊢
  rw [hl, List.any_append, h, Bool.true_or]


theorem hasArticleFor_mono (db db' : DB) (ext : List ArticleRow)
    (hl : db'.articles = db.articles ++ ext) (i : Nat)
    (h : hasArticleFor db i = true) : hasArticleFor db' i = true := by
  unfold hasArticleFor at h ⊢
  rw [hl, List.any_append, h, Bool.true_or]


theorem scrapeArticlesLoop_nil (stop : Nat → Bool) (mods : List Scraper)
    (db : DB) (count polls : Nat) :
    scrapeArticlesLoop stop mods [] db count polls = ⟨db, count, polls⟩ := rfl


theorem scrapeArticlesLoop_halt (stop : Nat → Bool) (mods : List Scraper)
    (l : UnscrapedLink) (rest : List UnscrapedLink) (db : DB)
    (count polls : Nat) (hst : stop polls = true) :
    scrapeArticlesLoop stop mods (l :: rest) db count polls
      = ⟨db, count, polls + 1⟩ := by
  simp [scrapeArticlesLoop, hst]


theorem scrapeArticlesLoop_nomod (stop : Nat → Bool) (mods : List Scraper)
    (l : UnscrapedLink) (rest : List UnscrapedLink) (db : DB)
    (count polls : Nat) (hst : stop polls = false)
    (hm : scraperMapGet mods l.source = none) :
    scrapeArticlesLoop stop mods (l :: rest) db count polls
      = scrapeArticlesLoop stop mods rest db count (polls + 1) := by
  simp [scrapeArticlesLoop, hst, hm]


theorem scrapeArticlesLoop_err (stop : Nat → Bool) (mods : List Scraper)
    (l : UnscrapedLink) (rest : List UnscrapedLink) (db : DB)
    (count polls : Nat) (s : Scraper) (e : String)
    (hst : stop polls = false) (hm : scraperMapGet mods l.source = some s)
    (hc : s.scrape_article_content l.url = .error e) :
    scrapeArticlesLoop stop mods (l :: rest) db count polls
      = scrapeArticlesLoop stop mods rest db count (polls + 1) := by
  simp [scrapeArticlesLoop, hst, hm, hc]


theorem scrapeArticlesLoop_none (stop : Nat → Bool) (mods : List Scraper)
    (l : UnscrapedLink) (rest : List UnscrapedLink) (db : DB)
    (count polls : Nat) (s : Scraper)
    (hst : stop polls = false) (hm : scraperMapGet mods l.source = some s)
    (hc : s.scrape_article_content l.url = .ok none) :
    scrapeArticlesLoop stop mods (l :: rest) db count polls
      = scrapeArticlesLoop stop mods rest db count (polls + 1) := by
  simp [scrapeArticlesLoop, hst, hm, hc]


theorem scrapeArticlesLoop_some (stop : Nat → Bool) (mods : List Scraper)
    (l : UnscrapedLink) (rest : List UnscrapedLink) (db : DB)
    (count polls : Nat) (s : Scraper) (d : ArticleData)
    (hst : stop polls = false) (hm : scraperMapGet mods l.source = some s)
    (hc : s.scrape_article_content l.url = .ok (some d)) :
    scrapeArticlesLoop stop mods (l :: rest) db count polls
      = scrapeArticlesLoop stop mods rest (add_article db l.id d).2
          (count + 1) (polls + 1) := by
  simp [scrapeArticlesLoop, hst, hm, hc]


theorem scrapeArticlesLoop_links (stop : Nat → Bool) (mods : List Scraper) :
    ∀ todo db count polls,
      (scrapeArticlesLoop stop mods todo db count polls).db.links = db.links := by
  intro todo
  induction todo with
  | nil => intro db count polls; rw [scrapeArticlesLoop_nil]
  | cons l rest ih =>
    intro db count polls
    by_cases hst : stop polls
    · rw [scrapeArticlesLoop_halt stop mods l rest db count polls hst]
    · have hst' : stop polls = false := by simpa using hst
      rcases hm : scraperMapGet mods l.source with _ | s
      · rw [scrapeArticlesLoop_nomod stop mods l rest db count polls hst' hm]
        exact ih db count (polls + 1)
      · rcases hc : s.scrape_article_content l.url with e | od
        · rw [scrapeArticlesLoop_err stop mods l rest db count polls s e hst' hm hc]
          exact ih db count (polls + 1)
        · rcases od with _ | d
          · rw [scrapeArticlesLoop_none stop mods l rest db count polls s hst' hm hc]
            exact ih db count (polls + 1)
          · rw [scrapeArticlesLoop_some stop mods l rest db count polls s d hst' hm hc]
            rw [ih _ (count + 1) (polls + 1)]
            by_cases hp : articleUrlPresent db d.url <;> simp [add_article, hp]


theorem scrapeArticlesLoop_articles_ext (stop : Nat → Bool) (mods : List Scraper) :
    ∀ todo db count polls, ∃ ext,
      (scrapeArticlesLoop stop mods todo db count polls).db.articles
        = db.articles ++ ext := by
  intro todo
  induction todo with
  | nil => intro db count polls; exact ⟨[], by rw [scrapeArticlesLoop_nil]; simp⟩
  | cons l rest ih =>
    intro db count polls
    by_cases hst : stop polls
    · rw [scrapeArticlesLoop_halt stop mods l rest db count polls hst]
      exact ⟨[], by simp⟩
    · have hst' : stop polls = false := by simpa using hst
      rcases hm : scraperMapGet mods l.source with _ | s
      · rw [scrapeArticlesLoop_nomod stop mods l rest db count polls hst' hm]
        exact ih db count (polls + 1)
      · rcases hc : s.scrape_article_content l.url with e | od
        · rw [scrapeArticlesLoop_err stop mods l rest db count polls s e hst' hm hc]
          exact ih db count (polls + 1)
        · rcases od with _ | d
          · rw [scrapeArticlesLoop_none stop mods l rest db count polls s hst' hm hc]
            exact ih db count (polls + 1)
          · rw [scrapeArticlesLoop_some stop mods l rest db count polls s d hst' hm hc]
            rcases ih (add_article db l.id d).2 (count + 1) (polls + 1) with ⟨ext2, hext2⟩
            by_cases hp : articleUrlPresent db d.url
            · refine ⟨ext2, ?_⟩
              rw [hext2]
              simp [add_article, hp]
            · refine ⟨⟨db.next_article_id, l.id, d.url, d.title, d.author,
                d.publication_date, d.raw_text, d.cleaned_text, false⟩ :: ext2, ?_⟩
              rw [hext2]
              simp [add_article, hp]


theorem unscraped_no_article (db : DB) (l : UnscrapedLink)
    (h : l ∈ get_unscraped_links db) : hasArticleFor db l.id = false := by
  unfold get_unscraped_links at h
  rcases List.mem_map.mp h with ⟨lr, hlr, hle⟩
  have hfilter := (List.mem_filter.mp hlr).2
  have hid : l.id = lr.id := by rw [← hle]
  rw [hid]
  simpa using hfilter


theorem get_unscraped_mono (db db' : DB) (ext : List ArticleRow)
    (hlinks : db'.links = db.links) (harts : db'.articles = db.articles ++ ext)
    (l : UnscrapedLink) (h : l ∈ get_unscraped_links db') :
    l ∈ get_unscraped_links db := by
  unfold get_unscraped_links at h ⊢
  rcases List.mem_map.mp h with ⟨lr, hlr, hle⟩
  have hmem := (List.mem_filter.mp hlr).1
  have hfilter := (List.mem_filter.mp hlr).2
  refine List.mem_map.mpr ⟨lr, List.mem_filter.mpr ⟨?_, ?_⟩, hle⟩
  · rw [← hlinks]; exact hmem
  · simp only [Bool.not_eq_true'] at hfilter ⊢
    rcases hh : hasArticleFor db lr.id with _ | _
    · rfl
    · rw [hasArticleFor_mono db db' ext harts lr.id hh] at hfilter
      cases hfilter


theorem scrapeArticlesLoop_establish (stop : Nat → Bool)
    (hstop : ∀ n, stop n = false) (mods : List Scraper) :
    ∀ todo db count polls, ∀ l ∈ todo, ∀ s,
      scraperMapGet mods l.source = some s →
      ∀ d, s.scrape_article_content l.url = Except.ok (some d) →
        articleUrlPresent (scrapeArticlesLoop stop mods todo db count polls).db d.url = true
        ∨ hasArticleFor (scrapeArticlesLoop stop mods todo db count polls).db l.id = true := by
  intro todo
  induction todo with
  | nil => intro db count polls l hl; cases hl
  | cons l0 rest ih =>
    intro db count polls l hl s hs d hd
    rcases hm : scraperMapGet mods l0.source with _ | s0
    · rw [scrapeArticlesLoop_nomod stop mods l0 rest db count polls (hstop polls) hm]
      rcases List.mem_cons.mp hl with rfl | hmem
      · rw [hm] at hs; cases hs
      · exact ih db count (polls + 1) l hmem s hs d hd
    · rcases hc : s0.scrape_article_content l0.url with e | od
      · rw [scrapeArticlesLoop_err stop mods l0 rest db count polls s0 e
          (hstop polls) hm hc]
        rcases List.mem_cons.mp hl with rfl | hmem
        · rw [hm] at hs
          injection hs with hs
          subst hs
          rw [hc] at hd; cases hd
        · exact ih db count (polls + 1) l hmem s hs d hd
      · rcases od with _ | d0
        · rw [scrapeArticlesLoop_none stop mods l0 rest db count polls s0
            (hstop polls) hm hc]
          rcases List.mem_cons.mp hl with rfl | hmem
          · rw [hm] at hs
            injection hs with hs
            subst hs
            rw [hc] at hd; cases hd
          · exact ih db count (polls + 1) l hmem s hs d hd
        · rw [scrapeArticlesLoop_some stop mods l0 rest db count polls s0 d0
            (hstop polls) hm hc]
          rcases List.mem_cons.mp hl with rfl | hmem
          · rw [hm] at hs
            injection hs with hs
            subst hs
            rw [hc] at hd
            injection hd with hd
            injection hd with hd
            subst hd
            rcases scrapeArticlesLoop_articles_ext stop mods rest
              (add_article db l.id d0).2 (count + 1) (polls + 1) with ⟨ext, hext⟩
            by_cases hp : articleUrlPresent db d0.url
            · left
              refine articleUrlPresent_mono _ _ ext hext d0.url ?_
              have heq : (add_article db l.id d0).2 = db := by
                simp [add_article, hp]
              rw [heq]; exact hp
            · right
              refine hasArticleFor_mono _ _ ext hext l.id ?_
              have harts : (add_article db l.id d0).2.articles
                  = db.articles ++ [⟨db.next_article_id, l.id, d0.url, d0.title,
                    d0.author, d0.publication_date, d0.raw_text, d0.cleaned_text,
                    false⟩] := by
                simp [add_article, hp]
              unfold hasArticleFor
              rw [harts, List.any_append]
              simp
          · exact ih _ (count + 1) (polls + 1) l hmem s hs d hd


theorem scrapeArticlesLoop_noop (stop : Nat → Bool)
    (hstop : ∀ n, stop n = false) (mods : List Scraper) :
    ∀ todo db count polls,
      (∀ l ∈ todo, ∀ s, scraperMapGet mods l.source = some s →
        ∀ d, s.scrape_article_content l.url = Except.ok (some d) →
          articleUrlPresent db d.url = true) →
      (scrapeArticlesLoop stop mods todo db count polls).db = db := by
  intro todo
  induction todo with
  | nil => intro db count polls _; rw [scrapeArticlesLoop_nil]
  | cons l0 rest ih =>
    intro db count polls hsat
    have hrest : ∀ l ∈ rest, ∀ s, scraperMapGet mods l.source = some s →
        ∀ d, s.scrape_article_content l.url = Except.ok (some d) →
          articleUrlPresent db d.url = true :=
      fun l hl => hsat l (List.mem_cons_of_mem l0 hl)
    rcases hm : scraperMapGet mods l0.source with _ | s0
    · rw [scrapeArticlesLoop_nomod stop mods l0 rest db count polls (hstop polls) hm]
      exact ih db count (polls + 1) hrest
    · rcases hc : s0.scrape_article_content l0.url with e | od
      · rw [scrapeArticlesLoop_err stop mods l0 rest db count polls s0 e
          (hstop polls) hm hc]
        exact ih db count (polls + 1) hrest
      · rcases od with _ | d0
        · rw [scrapeArticlesLoop_none stop mods l0 rest db count polls s0
            (hstop polls) hm hc]
          exact ih db count (polls + 1) hrest
        · rw [scrapeArticlesLoop_some stop mods l0 rest db count polls s0 d0
            (hstop polls) hm hc]
          have hp : articleUrlPresent db d0.url = true :=
            hsat l0 (List.mem_cons_self l0 rest) s0 hm d0 hc
          have hdb : (add_article db l0.id d0).2 = db := by
            simp [add_article, hp]
          rw [hdb]
          exact ih db (count + 1) (polls + 1) hrest


theorem run_scraping_eq (stop : Nat → Bool) (hstop : ∀ n, stop n = false)
    (mods : List Scraper) (db : DB) (polls : Nat) (rA : LinkLoopRes)
    (hA : scrapeLinksLoop stop mods db 0 polls = rA) :
    run_scraping_pipeline stop mods db polls
      = ⟨⟨rA.count,
          (scrapeArticlesLoop stop mods (get_unscraped_links rA.db) rA.db 0
            (rA.polls + 1)).count⟩,
         (scrapeArticlesLoop stop mods (get_unscraped_links rA.db) rA.db 0
            (rA.polls + 1)).db,
         (scrapeArticlesLoop stop mods (get_unscraped_links rA.db) rA.db 0
            (rA.polls + 1)).polls⟩ := by
  have hhalt : rA.halted = false := by
    rw [← hA]; exact scrapeLinksLoop_not_halted stop hstop mods db 0 polls
  unfold run_scraping_pipeline
  rw [hA]
  dsimp only
  rw [hhalt, hstop rA.polls]
  simp


/-- C4: acquisition is idempotent under the unique-locator deduplication.
Running the acquisition stage a second time from the state the first run
produced, with identical adapter output, creates no new state: the count of
new references is 0 and the database is unchanged.  Moreover
`new_links_found` counts exactly the link rows actually created, and
`add_link` returns a non-null id exactly when the locator was previously
absent (returning null leaves the store untouched). -/
theorem run_scraping_pipeline_idempotent (mods : List Scraper) (db0 db : DB)
    (url source : String) :
    (run_scraping_pipeline neverStop mods
        (run_scraping_pipeline neverStop mods db0 0).db 0).stats.new_links_found = 0
    ∧ (run_scraping_pipeline neverStop mods
        (run_scraping_pipeline neverStop mods db0 0).db 0).db
        = (run_scraping_pipeline neverStop mods db0 0).db
    ∧ (run_scraping_pipeline neverStop mods db0 0).db.links.length
        = db0.links.length
          + (run_scraping_pipeline neverStop mods db0 0).stats.new_links_found
    ∧ ((add_link db url source).1 ≠ none ↔ ∀ l ∈ db.links, l.url ≠ url)
    ∧ ((add_link db url source).1 = none → (add_link db url source).2 = db) := by
  have hns : ∀ n, neverStop n = false := fun _ => rfl
  obtain ⟨rA, hA⟩ : ∃ rA, scrapeLinksLoop neverStop mods db0 0 0 = rA := ⟨_, rfl⟩
  obtain ⟨rB, hB⟩ : ∃ rB, scrapeArticlesLoop neverStop mods
      (get_unscraped_links rA.db) rA.db 0 (rA.polls + 1) = rB := ⟨_, rfl⟩
  have h1 : run_scraping_pipeline neverStop mods db0 0
      = ⟨⟨rA.count, rB.count⟩, rB.db, rB.polls⟩ := by
    rw [run_scraping_eq neverStop hns mods db0 0 rA hA, hB]
  have hlinks1 : rB.db.links = rA.db.links := by
    rw [← hB]; exact scrapeArticlesLoop_links neverStop mods _ rA.db 0 _
  have hsatA : linksSat rA.db mods := by
    have := scrapeLinksLoop_sat neverStop hns mods db0 0 0
    rwa [hA] at this
  have hsat1 : linksSat rB.db mods :=
    linksSat_of_links_eq rA.db rB.db mods hlinks1 hsatA
  obtain ⟨extB, hextB⟩ : ∃ ext, rB.db.articles = rA.db.articles ++ ext := by
    rw [← hB]; exact scrapeArticlesLoop_articles_ext neverStop mods _ rA.db 0 _
  have hcsat : contentSat rB.db mods := by
    intro l hl s hs d hd
    have hl' : l ∈ get_unscraped_links rA.db :=
      get_unscraped_mono rA.db rB.db extB hlinks1 hextB l hl
    have hest := scrapeArticlesLoop_establish neverStop hns mods
      (get_unscraped_links rA.db) rA.db 0 (rA.polls + 1) l hl' s hs d hd
    rw [hB] at hest
    rcases hest with h | h
    · exact h
    · have hno := unscraped_no_article rB.db l hl
      rw [h] at hno; cases hno
  have h2A : scrapeLinksLoop neverStop mods rB.db 0 0
      = ⟨false, rB.db, 0, 0 + mods.length⟩ :=
    scrapeLinksLoop_noop neverStop hns mods rB.db 0 0 hsat1
  have h2 := run_scraping_eq neverStop hns mods rB.db 0
    ⟨false, rB.db, 0, 0 + mods.length⟩ h2A
  have h2B : (scrapeArticlesLoop neverStop mods (get_unscraped_links rB.db)
      rB.db 0 (0 + mods.length + 1)).db = rB.db :=
    scrapeArticlesLoop_noop neverStop hns mods (get_unscraped_links rB.db)
      rB.db 0 (0 + mods.length + 1) hcsat
  refine ⟨?_, ?_, ?_, ?_, ?_⟩
  · rw [h1]
    dsimp only
    rw [h2]
  · rw [h1]
    dsimp only
    rw [h2]
    dsimp only
    exact h2B
  · rw [h1]
    dsimp only
    have hcnt := scrapeLinksLoop_count neverStop mods db0 0 0
    rw [hA] at hcnt
    have hlen : rB.db.links.length = rA.db.links.length :=
      congrArg List.length hlinks1
    omega
  · unfold add_link
    by_cases h : urlPresent db url
    · rw [if_pos h]
      constructor
      · intro hcon
        exact absurd rfl hcon
      · intro hall
        rcases List.any_eq_true.mp h with ⟨l, hl, hlu⟩
        exact absurd (eq_of_beq hlu) (hall l hl)
    · rw [if_neg h]
      constructor
      · intro _ l hl hlu
        exact h (List.any_eq_true.mpr ⟨l, hl, by simp [hlu]⟩)
      · intro _
        simp
  · intro hnone
    unfold add_link at hnone ⊢
    by_cases h : urlPresent db url
    · rw [if_pos h]
    · rw [if_neg h] at hnone
      simp at hnone


theorem analysisLoop_nil (stop : Nat → Bool) (an : Analyzer) (db : DB)
    (count polls : Nat) :
    analysisLoop stop an [] db count polls = ⟨db, count, polls⟩ := rfl


theorem analysisLoop_halt (stop : Nat → Bool) (an : Analyzer)
    (art : UnanalyzedArticle) (rest : List UnanalyzedArticle) (db : DB)
    (count polls : Nat) (hst : stop polls = true) :
    analysisLoop stop an (art :: rest) db count polls = ⟨db, count, polls + 1⟩ := by
  simp [analysisLoop, hst]


theorem analysisLoop_err (stop : Nat → Bool) (an : Analyzer)
    (art : UnanalyzedArticle) (rest : List UnanalyzedArticle) (db : DB)
    (count polls : Nat) (e : String) (hst : stop polls = false)
    (ha : an.analyze_text_for_sentiment art.text = .error e) :
    analysisLoop stop an (art :: rest) db count polls
      = analysisLoop stop an rest db count (polls + 1) := by
  simp [analysisLoop, hst, ha]


theorem analysisLoop_ok_none (stop : Nat → Bool) (an : Analyzer)
    (art : UnanalyzedArticle) (rest : List UnanalyzedArticle) (db : DB)
    (count polls : Nat) (entities : List Entity) (hst : stop polls = false)
    (ha : an.analyze_text_for_sentiment art.text = .ok (entities, none)) :
    analysisLoop stop an (art :: rest) db count polls
      = analysisLoop stop an rest
          (mark_article_as_analyzed
            (addSentiments db art.id entities count).1 art.id)
          (addSentiments db art.id entities count).2 (polls + 1) := by
  simp [analysisLoop, hst, ha]


theorem analysisLoop_ok_some (stop : Nat → Bool) (an : Analyzer)
    (art : UnanalyzedArticle) (rest : List UnanalyzedArticle) (db : DB)
    (count polls : Nat) (entities : List Entity) (uu : Usage)
    (hst : stop polls = false)
    (ha : an.analyze_text_for_sentiment art.text = .ok (entities, some uu)) :
    analysisLoop stop an (art :: rest) db count polls
      = analysisLoop stop an rest
          (mark_article_as_analyzed
            (addSentiments (add_usage_log db art.id an.provider) art.id
              entities count).1 art.id)
          (addSentiments (add_usage_log db art.id an.provider) art.id
            entities count).2 (polls + 1) := by
  simp [analysisLoop, hst, ha]


theorem addSentiments_articles (es : List Entity) :
    ∀ db aid count, (addSentiments db aid es count).1.articles = db.articles := by
  induction es with
  | nil => intro db aid count; rfl
  | cons e rest ih =>
    intro db aid count
    rw [addSentiments]
    rw [ih]
    rfl


theorem markedAll_of_articles_eq (db db' : DB) (x : Nat)
    (h : db'.articles = db.articles) (hm : markedAll db x) : markedAll db' x := by
  intro a ha hid
  rw [h] at ha
  exact hm a ha hid


theorem markedAll_mark_self (db : DB) (x : Nat) :
    markedAll (mark_article_as_analyzed db x) x := by
  intro a ha hid
  unfold mark_article_as_analyzed at ha
  rcases List.mem_map.mp ha with ⟨b, hb, hbe⟩
  by_cases hbx : b.id == x
  · rw [if_pos hbx] at hbe
    rw [← hbe]
  · rw [if_neg hbx] at hbe
    subst hbe
    exact absurd (beq_iff_eq.mpr hid) (by simpa using hbx)


theorem markedAll_mark_mono (db : DB) (x y : Nat) (hm : markedAll db x) :
    markedAll (mark_article_as_analyzed db y) x := by
  intro a ha hid
  unfold mark_article_as_analyzed at ha
  rcases List.mem_map.mp ha with ⟨b, hb, hbe⟩
  by_cases hby : b.id == y
  · rw [if_pos hby] at hbe
    rw [← hbe]
  · rw [if_neg hby] at hbe
    subst hbe
    exact hm b hb hid


theorem analysisLoop_markedAll_mono (stop : Nat → Bool) (an : Analyzer) (x : Nat) :
    ∀ arts db count polls, markedAll db x →
      markedAll (analysisLoop stop an arts db count polls).db x := by
  intro arts
  induction arts with
  | nil => intro db count polls hm; rw [analysisLoop_nil]; exact hm
  | cons art rest ih =>
    intro db count polls hm
    by_cases hst : stop polls
    · rw [analysisLoop_halt stop an art rest db count polls hst]; exact hm
    · have hst' : stop polls = false := by simpa using hst
      rcases ha : an.analyze_text_for_sentiment art.text with e | pr
      · rw [analysisLoop_err stop an art rest db count polls e hst' ha]
        exact ih db count (polls + 1) hm
      · rcases pr with ⟨entities, _ | uu⟩
        · rw [analysisLoop_ok_none stop an art rest db count polls entities hst' ha]
          refine ih _ _ (polls + 1) ?_
          refine markedAll_mark_mono _ x art.id ?_
          exact markedAll_of_articles_eq db _ x (addSentiments_articles entities db art.id count) hm
        · rw [analysisLoop_ok_some stop an art rest db count polls entities uu hst' ha]
          refine ih _ _ (polls + 1) ?_
          refine markedAll_mark_mono _ x art.id ?_
          refine markedAll_of_articles_eq db _ x ?_ hm
          rw [addSentiments_articles]
          rfl


theorem analysisLoop_marks (stop : Nat → Bool) (hstop : ∀ n, stop n = false)
    (an : Analyzer) (a : UnanalyzedArticle) (entities : List Entity)
    (u : Option Usage)
    (hz : an.analyze_text_for_sentiment a.text = .ok (entities, u)) :
    ∀ arts db count polls, a ∈ arts →
      markedAll (analysisLoop stop an arts db count polls).db a.id := by
  intro arts
  induction arts with
  | nil => intro db count polls hmem; cases hmem
  | cons art rest ih =>
    intro db count polls hmem
    rcases List.mem_cons.mp hmem with rfl | hmem'
    · rcases u with _ | uu
      · rw [analysisLoop_ok_none stop an a rest db count polls entities (hstop polls) hz]
        exact analysisLoop_markedAll_mono stop an a.id rest _ _ (polls + 1)
          (markedAll_mark_self _ a.id)
      · rw [analysisLoop_ok_some stop an a rest db count polls entities uu (hstop polls) hz]
        exact analysisLoop_markedAll_mono stop an a.id rest _ _ (polls + 1)
          (markedAll_mark_self _ a.id)
    · rcases ha : an.analyze_text_for_sentiment art.text with e | pr
      · rw [analysisLoop_err stop an art rest db count polls e (hstop polls) ha]
        exact ih db count (polls + 1) hmem'
      · rcases pr with ⟨entities2, _ | uu2⟩
        · rw [analysisLoop_ok_none stop an art rest db count polls entities2 (hstop polls) ha]
          exact ih _ _ (polls + 1) hmem'
        · rw [analysisLoop_ok_some stop an art rest db count polls entities2 uu2 (hstop polls) ha]
          exact ih _ _ (polls + 1) hmem'


theorem rowsOfId_of_articles_eq (db db' : DB) (x : Nat)
    (h : db'.articles = db.articles) : rowsOfId db' x = rowsOfId db x := by
  unfold rowsOfId
  rw [h]


theorem filter_mark_ne (x y : Nat) (h : y ≠ x) : ∀ l : List ArticleRow,
    (l.map (fun a => if a.id == y then { a with is_analyzed := true } else a)).filter
        (fun a => a.id == x)
      = l.filter (fun a => a.id == x) := by
  intro l
  induction l with
  | nil => rfl
  | cons a rest ih =>
    rw [List.map_cons]
    by_cases hay : (a.id == y) = true
    · rw [if_pos hay, List.filter_cons, List.filter_cons]
      have hax : (a.id == x) = false := by
        rw [beq_iff_eq.mp hay]
        exact beq_eq_false_iff_ne.mpr h
      rw [if_neg (by simp [hax]), if_neg (by simp [hax])]
      exact ih
    · rw [if_neg hay, List.filter_cons, List.filter_cons]
      by_cases hax : (a.id == x) = true
      · rw [if_pos (by simpa using hax), if_pos (by simpa using hax), ih]
      · rw [if_neg (by simp [hax]), if_neg (by simp [hax])]
        exact ih


theorem rowsOfId_mark_ne (db : DB) (x y : Nat) (h : y ≠ x) :
    rowsOfId (mark_article_as_analyzed db y) x = rowsOfId db x :=
  filter_mark_ne x y h db.articles


theorem analysisLoop_rowsOfId (stop : Nat → Bool) (hstop : ∀ n, stop n = false)
    (an : Analyzer) (x : Nat) :
    ∀ arts db count polls,
      (∀ a ∈ arts, a.id = x →
        ∃ e, an.analyze_text_for_sentiment a.text = .error e) →
      rowsOfId (analysisLoop stop an arts db count polls).db x = rowsOfId db x := by
  intro arts
  induction arts with
  | nil => intro db count polls _; rw [analysisLoop_nil]
  | cons art rest ih =>
    intro db count polls hprem
    have hrest : ∀ a ∈ rest, a.id = x →
        ∃ e, an.analyze_text_for_sentiment a.text = .error e :=
      fun a ha => hprem a (List.mem_cons_of_mem art ha)
    rcases ha : an.analyze_text_for_sentiment art.text with e | pr
    · rw [analysisLoop_err stop an art rest db count polls e (hstop polls) ha]
      exact ih db count (polls + 1) hrest
    · have hne : art.id ≠ x := by
        intro hcon
        rcases hprem art (List.mem_cons_self art rest) hcon with ⟨e', he'⟩
        rw [ha] at he'; cases he'
      rcases pr with ⟨entities, _ | uu⟩
      · rw [analysisLoop_ok_none stop an art rest db count polls entities (hstop polls) ha]
        rw [ih _ _ (polls + 1) hrest, rowsOfId_mark_ne _ x art.id hne,
          rowsOfId_of_articles_eq db _ x (addSentiments_articles entities db art.id count)]
      · rw [analysisLoop_ok_some stop an art rest db count polls entities uu (hstop polls) ha]
        rw [ih _ _ (polls + 1) hrest, rowsOfId_mark_ne _ x art.id hne]
        refine rowsOfId_of_articles_eq db _ x ?_
        rw [addSentiments_articles]
        rfl


theorem run_analysis_ok_db (stop : Nat → Bool) (an : Analyzer) (db : DB)
    (polls : Nat) :
    (run_analysis_pipeline stop (.ok an) db polls).db
      = (analysisLoop stop an (get_unanalyzed_articles db) db 0 polls).db := rfl


theorem unanalyzed_row (db : DB) (p : UnanalyzedArticle)
    (h : p ∈ get_unanalyzed_articles db) :
    ∃ row ∈ db.articles, unanalyzedFilter row = true
      ∧ p = ⟨row.id, row.cleaned_text⟩ := by
  unfold get_unanalyzed_articles at h
  rcases List.mem_map.mp h with ⟨row, hrow, hre⟩
  exact ⟨row, (List.mem_filter.mp hrow).1, (List.mem_filter.mp hrow).2, hre.symm⟩


theorem unanalyzedFilter_not_analyzed (row : ArticleRow)
    (h : unanalyzedFilter row = true) : row.is_analyzed = false := by
  have h' : (row.is_analyzed == false) = true
      ∧ (row.cleaned_text != "N/A") = true := by
    simpa [unanalyzedFilter, Bool.and_eq_true] using h
  simpa using h'.1


/-! ### Claim C5: zero extracted entities is a terminal outcome -/

/-- C5: a content item the extraction stage processes whose extractor call
returns zero entities has its processed flag set to true, and a subsequent
extraction-stage selection never returns that item again. -/
theorem analysis_zero_entities_terminal (an : Analyzer) (db : DB)
    (a : UnanalyzedArticle) (u : Option Usage)
    (ha : a ∈ get_unanalyzed_articles db)
    (hz : an.analyze_text_for_sentiment a.text = .ok ([], u)) :
    markedAll (run_analysis_pipeline neverStop (.ok an) db 0).db a.id
    ∧ ∀ p ∈ get_unanalyzed_articles
        (run_analysis_pipeline neverStop (.ok an) db 0).db, p.id ≠ a.id := by
  have hns : ∀ n, neverStop n = false := fun _ => rfl
  have hmark : markedAll (run_analysis_pipeline neverStop (.ok an) db 0).db a.id := by
    rw [run_analysis_ok_db]
    exact analysisLoop_marks neverStop hns an a [] u hz
      (get_unanalyzed_articles db) db 0 0 ha
  refine ⟨hmark, ?_⟩
  intro p hp hpid
  rcases unanalyzed_row _ p hp with ⟨row, hrowmem, hrowfilter, hpe⟩
  subst hpe
  have hrow_id : row.id = a.id := hpid
  have hmarked : row.is_analyzed = true := hmark row hrowmem hrow_id
  rw [unanalyzedFilter_not_analyzed row hrowfilter] at hmarked
  exact Bool.false_ne_true hmarked


theorem aC5_mem : aC5 ∈ get_unanalyzed_articles dbC5 := by decide


/-- Witness for C5 at a one-article store and a zero-entity extractor. -/
theorem analysis_zero_entities_terminal_w :
    aC5 ∈ get_unanalyzed_articles dbC5
    ∧ anW.analyze_text_for_sentiment aC5.text = .ok ([], none)
    ∧ (markedAll (run_analysis_pipeline neverStop (.ok anW) dbC5 0).db aC5.id
      ∧ ∀ p ∈ get_unanalyzed_articles
          (run_analysis_pipeline neverStop (.ok anW) dbC5 0).db, p.id ≠ aC5.id) :=
  ⟨aC5_mem, rfl,
    analysis_zero_entities_terminal anW dbC5 aC5 none aC5_mem rfl⟩


/-! ### Claim C6: a single failing item does not poison the run -/

/-- C6: when processing one content item raises mid-stage, every other
selected item is still processed, the failing item stays eligible for a
future run (it is selected again), and an uncancelled run records the final
status "Completed". -/
theorem analysis_single_failure_isolated (an : Analyzer) (db : DB)
    (e : String) (j : Nat)
    (hnd : ((get_unanalyzed_articles db).map (fun a => a.id)).Nodup)
    (hj : j < (get_unanalyzed_articles db).length)
    (hfail : an.analyze_text_for_sentiment
        ((get_unanalyzed_articles db).get ⟨j, hj⟩).text = .error e)
    (hok : ∀ i, (h : i < (get_unanalyzed_articles db).length) → i ≠ j →
        ∃ ents u, an.analyze_text_for_sentiment
          ((get_unanalyzed_articles db).get ⟨i, h⟩).text = .ok (ents, u)) :
    (∀ i, (h : i < (get_unanalyzed_articles db).length) → i ≠ j →
        markedAll (run_analysis_pipeline neverStop (.ok an) db 0).db
          ((get_unanalyzed_articles db).get ⟨i, h⟩).id)
    ∧ (get_unanalyzed_articles db).get ⟨j, hj⟩
        ∈ get_unanalyzed_articles (run_analysis_pipeline neverStop (.ok an) db 0).db
    ∧ (∀ (mods : List Scraper) (ainit : Except String Analyzer) (db' : DB),
        (pipeline_task_run neverStop mods ainit db').persisted.status
          = "Completed") := by
  have hns : ∀ n, neverStop n = false := fun _ => rfl
  refine ⟨?_, ?_, ?_⟩
  · intro i h hne
    rcases hok i h hne with ⟨ents, u, hoki⟩
    rw [run_analysis_ok_db]
    exact analysisLoop_marks neverStop hns an _ ents u hoki
      (get_unanalyzed_articles db) db 0 0 (List.get_mem _ i h)
  · have hprem : ∀ a ∈ get_unanalyzed_articles db,
        a.id = ((get_unanalyzed_articles db).get ⟨j, hj⟩).id →
        ∃ e', an.analyze_text_for_sentiment a.text = .error e' := by
      intro a hmem hid
      rcases List.mem_iff_get.mp hmem with ⟨i, hget⟩
      by_cases hij : (i : Nat) = j
      · refine ⟨e, ?_⟩
        have hae : a = (get_unanalyzed_articles db).get ⟨j, hj⟩ := by
          rw [← hget]
          congr 1
          exact Fin.ext hij
        rw [hae]
        exact hfail
      · exfalso
        have hi' : (i : Nat) < ((get_unanalyzed_articles db).map
            (fun a => a.id)).length := by
          simp only [List.length_map]
          exact i.isLt
        have hj' : j < ((get_unanalyzed_articles db).map
            (fun a => a.id)).length := by
          simpa using hj
        have hgi : ((get_unanalyzed_articles db).map (fun a => a.id)).get
            ⟨i, hi'⟩ = a.id := by
          simp only [List.get_eq_getElem, List.getElem_map]
          rw [← hget]
          rfl
        have hgj : ((get_unanalyzed_articles db).map (fun a => a.id)).get
            ⟨j, hj'⟩ = ((get_unanalyzed_articles db).get ⟨j, hj⟩).id := by
          simp only [List.get_eq_getElem, List.getElem_map]
        have heq : ((get_unanalyzed_articles db).map (fun a => a.id)).get ⟨i, hi'⟩
            = ((get_unanalyzed_articles db).map (fun a => a.id)).get ⟨j, hj'⟩ := by
          rw [hgi, hgj, hid]
        have := (List.Nodup.get_inj_iff hnd).mp heq
        exact hij (by simpa using congrArg Fin.val this)
    have hpres := analysisLoop_rowsOfId neverStop hns an
      ((get_unanalyzed_articles db).get ⟨j, hj⟩).id
      (get_unanalyzed_articles db) db 0 0 hprem
    have hmemj : (get_unanalyzed_articles db).get ⟨j, hj⟩
        ∈ get_unanalyzed_articles db := List.get_mem _ j hj
    rcases unanalyzed_row db _ hmemj with ⟨row, hrm, hrf, hre⟩
    have hx : ((get_unanalyzed_articles db).get ⟨j, hj⟩).id = row.id := by
      rw [hre]
    rw [hx] at hpres
    have hrin : row ∈ rowsOfId db row.id :=
      List.mem_filter.mpr ⟨hrm, by simp⟩
    have hrin' : row ∈ rowsOfId
        (analysisLoop neverStop an (get_unanalyzed_articles db) db 0 0).db
        row.id := by
      rw [hpres]; exact hrin
    have hrm' : row ∈ (analysisLoop neverStop an
        (get_unanalyzed_articles db) db 0 0).db.articles :=
      (List.mem_filter.mp hrin').1
    rw [run_analysis_ok_db, hre]
    exact List.mem_map.mpr ⟨row, List.mem_filter.mpr ⟨hrm', hrf⟩, rfl⟩
  · intro mods ainit db'
    rfl


theorem dbC6_len0 : 0 < (get_unanalyzed_articles dbC6).length := by decide


theorem dbC6_nodup :
    ((get_unanalyzed_articles dbC6).map (fun a => a.id)).Nodup := by decide


theorem dbC6_fail : anC6.analyze_text_for_sentiment
    ((get_unanalyzed_articles dbC6).get ⟨0, dbC6_len0⟩).text = .error "boom" := rfl


theorem dbC6_ok : ∀ i, (h : i < (get_unanalyzed_articles dbC6).length) →
    i ≠ 0 → ∃ ents u, anC6.analyze_text_for_sentiment
      ((get_unanalyzed_articles dbC6).get ⟨i, h⟩).text = .ok (ents, u) := by
  intro i h hne
  have hlen : (get_unanalyzed_articles dbC6).length = 2 := rfl
  have hi : i = 1 := by omega
  subst hi
  exact ⟨[entW], some ⟨7⟩, rfl⟩


/-- Witness for C6: two items, the first one's extractor call raises. -/
theorem analysis_single_failure_isolated_w :
    ((get_unanalyzed_articles dbC6).map (fun a => a.id)).Nodup
    ∧ anC6.analyze_text_for_sentiment
        ((get_unanalyzed_articles dbC6).get ⟨0, dbC6_len0⟩).text = .error "boom"
    ∧ ((∀ i, (h : i < (get_unanalyzed_articles dbC6).length) → i ≠ 0 →
        markedAll (run_analysis_pipeline neverStop (.ok anC6) dbC6 0).db
          ((get_unanalyzed_articles dbC6).get ⟨i, h⟩).id)
      ∧ (get_unanalyzed_articles dbC6).get ⟨0, dbC6_len0⟩
          ∈ get_unanalyzed_articles
              (run_analysis_pipeline neverStop (.ok anC6) dbC6 0).db
      ∧ (∀ (mods : List Scraper) (ainit : Except String Analyzer) (db' : DB),
          (pipeline_task_run neverStop mods ainit db').persisted.status
            = "Completed")) :=
  ⟨dbC6_nodup, dbC6_fail,
    analysis_single_failure_isolated anC6 dbC6 "boom" 0 dbC6_nodup dbC6_len0
      dbC6_fail dbC6_ok⟩


/-! ### Claim C3: guaranteed cleanup on every exit path -/

/-- C3: on every exit path of a run body — normal completion, cancellation,
or an exception escaping a stage — the tracker is reset to the idle shape
(the `finally` blocks of `pipeline_task` and `scheduled_pipeline_run`), so
a status query after any run terminates reports `is_running = false`. -/
theorem run_cleanup_resets_idle (inp : RunInput) (stop : Nat → Bool)
    (mods : List Scraper) (ainit : Except String Analyzer) (db : DB) :
    (pipeline_task inp).tracker = idleTracker
    ∧ (scheduled_body inp).tracker = idleTracker
    ∧ (pipeline_task_run stop mods ainit db).tracker = idleTracker
    ∧ (get_pipeline_status (pipeline_task inp).tracker).is_running = false
    ∧ (get_pipeline_status (scheduled_body inp).tracker).is_running = false
    ∧ (get_pipeline_status
        (pipeline_task_run stop mods ainit db).tracker).is_running = false := by
  obtain ⟨so, ao, b1, b2⟩ := inp
  rcases so with e | ss <;> rcases ao with e2 | as_ <;> cases b1 <;> cases b2 <;>
    exact ⟨rfl, rfl, rfl, rfl, rfl, rfl⟩


/-! ### Claim C9: persistence of partial progress -/

/-- C9 counterexample: when the run body raises after acquisition returned
its counts, the `except` branch persists a summary holding *only* the
`Failed` status — the accumulated counts are recorded as 0, not preserved.
Here acquisition found 2 new references and 1 new content item before the
extraction stage raised "boom". -/
theorem pipeline_task_failure_discards_counts :
    (pipeline_task ⟨.ok ⟨2, 1⟩, .error "boom", false, false⟩).persisted
        = ⟨0, 0, 0, "Failed: boom"⟩
    ∧ (pipeline_task ⟨.ok ⟨2, 1⟩, .error "boom", false, false⟩).persisted.new_links_found
        ≠ 2 := by
  constructor
  · rfl
  · decide


/-- C9 (amended): counts accumulated before a *cancellation* are preserved
in the persisted summary ("Stopped by user"), and a summary is persisted
unconditionally when the body raises — but it carries the `Failed` status
with the error's description and all counts zero. -/
theorem pipeline_task_persistence (ss : ScrapeStats) (as_ : AnalysisStats)
    (aout : Except String AnalysisStats) (e : String) (b2 : Bool) :
    (pipeline_task ⟨.ok ss, aout, true, true⟩).persisted
        = ⟨ss.new_links_found, ss.articles_scraped, 0, "Stopped by user"⟩
    ∧ (pipeline_task ⟨.ok ss, .ok as_, false, true⟩).persisted
        = ⟨ss.new_links_found, ss.articles_scraped, as_.entities_analyzed,
            "Stopped by user"⟩
    ∧ (pipeline_task ⟨.error e, aout, true, b2⟩).persisted
        = ⟨0, 0, 0, "Failed: " ++ e⟩
    ∧ (pipeline_task ⟨.ok ss, .error e, false, b2⟩).persisted
        = ⟨0, 0, 0, "Failed: " ++ e⟩ :=
  ⟨rfl, rfl, rfl, rfl⟩


/-! ### Claim C2: cancellation during acquisition (scheduled path) -/

/-- C2 evaluation at the failing input: during a *scheduled* run the
cancellation signal becomes set while the first adapter is processed
(`stopAt1` is false at poll 0 and true from poll 1, so acquisition stops
after one adapter with partial counts) — yet `scheduled_pipeline_run`
still invokes the extraction stage and persists the summary with status
"Completed", not "Stopped by user". -/
theorem scheduled_run_ignores_cancellation :
    stopAt1 0 = false
    ∧ stopAt1 1 = true
    ∧ (run_scraping_pipeline stopAt1 [scraperA, scraperB] emptyDB 0).stats
        = ⟨1, 0⟩
    ∧ (scheduled_pipeline_run stopAt1 envC2 regInit idleTracker (.ok anW)
        emptyDB).analysisInvoked = true
    ∧ (scheduled_pipeline_run stopAt1 envC2 regInit idleTracker (.ok anW)
        emptyDB).persisted = some ⟨1, 0, 0, "Completed"⟩ := by
  refine ⟨rfl, rfl, rfl, rfl, rfl⟩


/-! ### Claim C1: admission is not atomic with the `is_running` update -/

/-- C1 evaluation at the failing schedule: `is_running` is set by the
spawned `pipeline_task`, not by the `trigger_pipeline` handler, so two
trigger requests that are both handled before either spawned task begins
executing are both admitted with 202, and after both tasks start, two
orchestration runs are active at once.  A trigger that arrives once a task
has set `is_running` is rejected with 409. -/
theorem trigger_race_admits_two_runs :
    (trigger_pipeline_step regC none initSys).1 = .accepted202
    ∧ (trigger_pipeline_step regC none
        (trigger_pipeline_step regC none initSys).2).1 = .accepted202
    ∧ (task_start_step (task_start_step
        (trigger_pipeline_step regC none
          (trigger_pipeline_step regC none initSys).2).2)).activeRuns = 2
    ∧ (task_start_step (task_start_step
        (trigger_pipeline_step regC none
          (trigger_pipeline_step regC none initSys).2).2)).tracker.is_running
        = true
    ∧ (trigger_pipeline_step regC none
        (task_start_step (task_start_step
          (trigger_pipeline_step regC none
            (trigger_pipeline_step regC none initSys).2).2))).1 = .conflict409 :=
  ⟨rfl, rfl, rfl, rfl, rfl⟩


/-! ### Claim C10: a selection of only unknown names is rejected with 400 -/

theorem regC_unknown : ∀ n ∈ ["nosuch.com"], dictGet regC n = none := by
  intro n hn
  have h := List.mem_singleton.mp hn
  subst h
  rfl


/-- C10: a trigger request whose selection resolves to no adapter (every
requested name unknown) is rejected with 400; no background task is
spawned and the state is left unchanged. -/
theorem trigger_unknown_sources_rejected (reg : List (String × Scraper))
    (ns : List String) (s : SysState)
    (h1 : s.tracker.is_running = false)
    (h2 : ∀ n ∈ ns, dictGet reg n = none) :
    trigger_pipeline_step reg (some ns) s = (.badRequest400, s) := by
  unfold trigger_pipeline_step
  rw [h1]
  rw [if_neg (by simp)]
  have hmods : resolve_scrapers reg (some ns) = [] := by
    unfold resolve_scrapers
    exact List.filterMap_eq_nil_iff.mpr h2
  dsimp only
  rw [hmods]
  rfl


/-- Witness for C10 at a one-adapter registry and the unknown name
"nosuch.com". -/
theorem trigger_unknown_sources_rejected_w :
    initSys.tracker.is_running = false
    ∧ (∀ n ∈ ["nosuch.com"], dictGet regC n = none)
    ∧ trigger_pipeline_step regC (some ["nosuch.com"]) initSys
        = (.badRequest400, initSys) :=
  ⟨rfl, regC_unknown,
    trigger_unknown_sources_rejected regC ["nosuch.com"] initSys rfl regC_unknown⟩


end SentiNews
